import Mathlib

/-!
Shallow embedding of the activity reconciliation and enrichment pipeline of
`garmin_data_extract/fetch_garmin_live.py`, together with theorems settling the
frozen claims about its specification.

Numeric values are modelled as rationals, Python `None` as `Option.none`, and
Python dict records as Lean structures.  Python `round` (banker\x27s rounding,
ties to even) is modelled by `pyRound`.  Python string slicing, lowercasing and
substring search are modelled over the underlying character lists.
-/

/-- Python `round(q)`: round half to even. -/
def pyRound (q : ℚ) : ℤ :=
  if q - (⌊q⌋ : ℚ) < 1/2 then ⌊q⌋
  else if 1/2 < q - (⌊q⌋ : ℚ) then ⌊q⌋ + 1
  else if ⌊q⌋ % 2 = 0 then ⌊q⌋ else ⌊q⌋ + 1

/-- Python `round(q, 1)`. -/
def pyRound1 (q : ℚ) : ℚ := (pyRound (q * 10) : ℚ) / 10

/-- Python `round(q, 2)`. -/
def pyRound2 (q : ℚ) : ℚ := (pyRound (q * 100) : ℚ) / 100

/-- Python `d.get(key, 0) or 0` for a numeric field: a missing value and a
falsy value both collapse to `0`. -/
def pyOr0 (o : Option ℚ) : ℚ :=
  match o with
  | none => 0
  | some v => v

/-- Python truthiness of an optional numeric value (`None` and `0` are falsy). -/
def pyTruthy (o : Option ℚ) : Bool :=
  match o with
  | none => false
  | some v => v != 0

/-- Python `round(d[key], 1) if d.get(key) else None`: round a value that is
present and truthy, otherwise yield `None`. -/
def pyRoundOpt1 (o : Option ℚ) : Option ℚ :=
  match o with
  | none => none
  | some v => if v = 0 then none else some (pyRound1 v)

/-- Python substring test `needle in hay` on character lists. -/
def listInfixB : List Char → List Char → Bool
  | needle, [] => needle.isEmpty
  | needle, c :: rest => needle.isPrefixOf (c :: rest) || listInfixB needle rest

/-- Python `s.lower()` as a character list (kernel-reducible form). -/
def lowerData (s : String) : List Char := s.data.map Char.toLower

/-- Python `s.upper()` (kernel-reducible form). -/
def pyUpper (s : String) : String := String.mk (s.data.map Char.toUpper)

/-- Python slice `s[a:b]` on strings. -/
def pySlice (s : String) (a b : ℕ) : String := String.mk ((s.data.drop a).take (b - a))

/-- String strict comparison through the character-list lexicographic order
(kernel-reducible, and equivalent to the Python string order on ASCII data). -/
def strLtB (a b : String) : Bool := decide (a.data < b.data)

/-- String non-strict comparison through the character-list order. -/
def strLeB (a b : String) : Bool := strLtB a b || decide (a.data = b.data)

/-- One entry of the `hrZones` array: `{"zone": i, "seconds": s}`. -/
structure HRZone where
  zone : ℕ
  seconds : ℤ
  deriving DecidableEq, Repr

/-- Canonical Activity Record: the fields of the dicts built by
`_parse_activity` and `_parse_strava_activity` that the claims are about. -/
structure ActivityRecord where
  activityId : Option ℤ
  source : Option String
  name : String
  activityType : String
  sportType : String
  date : String
  startTimeLocal : String
  duration_s : ℚ
  moving_duration_s : ℚ
  elapsed_duration_s : ℚ
  distance_km : ℚ
  avg_speed_kmh : ℚ
  max_speed_kmh : ℚ
  elevation_gain_m : ℚ
  avg_hr : Option ℚ
  max_hr : Option ℚ
  min_hr : Option ℚ
  hrZones : List HRZone
  calories : ℚ
  avg_cadence : Option ℚ
  max_cadence : Option ℚ
  avg_power : Option ℚ
  max_power : Option ℚ
  norm_power : Option ℚ
  grit : Option ℚ
  avg_flow : Option ℚ
  startLatitude : Option ℚ
  startLongitude : Option ℚ
  deriving DecidableEq, Repr

/-- A blank record used as the base of the concrete records in witnesses and
counterexamples. -/
def baseRec : ActivityRecord where
  activityId := none
  source := none
  name := ""
  activityType := ""
  sportType := ""
  date := ""
  startTimeLocal := ""
  duration_s := 0
  moving_duration_s := 0
  elapsed_duration_s := 0
  distance_km := 0
  avg_speed_kmh := 0
  max_speed_kmh := 0
  elevation_gain_m := 0
  avg_hr := none
  max_hr := none
  min_hr := none
  hrZones := []
  calories := 0
  avg_cadence := none
  max_cadence := none
  avg_power := none
  max_power := none
  norm_power := none
  grit := none
  avg_flow := none
  startLatitude := none
  startLongitude := none

/-- Duplicate test of `merge_activity_histories`: a Strava record is a
duplicate when some Garmin record shares its date and differs in distance by
strictly less than 2 km. -/
def is_duplicate_of_garmin (garmin : List ActivityRecord) (s : ActivityRecord) : Bool :=
  garmin.any (fun g => g.date == s.date && decide (|g.distance_km - s.distance_km| < 2))

/-- Sort relation of the final `merged.sort(key=..., reverse=True)`: descending
by `(date, startTimeLocal)`; a stable sort under this relation is exactly the
Python stable reverse sort by that key. -/
def actSortKeyLE (a b : ActivityRecord) : Bool :=
  strLtB b.date a.date || (b.date == a.date && strLeB b.startTimeLocal a.startTimeLocal)

/-- `merge_activity_histories(garmin, strava)`: keep all Garmin records, keep a
Strava record unless it is judged a duplicate, then sort most recent first. -/
def merge_activity_histories (garmin strava : List ActivityRecord) : List ActivityRecord :=
  List.insertionSort (fun a b => actSortKeyLE a b = true)
    (garmin ++ strava.filter (fun s => !(is_duplicate_of_garmin garmin s)))

/-- Concrete record dated January 2024. -/
def recJan : ActivityRecord := { baseRec with date := "2024-01-01", activityId := some 1 }

/-- Concrete record dated February 2024. -/
def recFeb : ActivityRecord := { baseRec with date := "2024-02-01", activityId := some 2 }

/-- Concrete Strava-side record, same date as `recJan`, distance 1 km away. -/
def recSameDayNear : ActivityRecord :=
  { baseRec with date := "2024-01-01", activityId := some 3, distance_km := 1 }

/-- C1: merge keeps every primary record; the result is, up to the final
reordering, the primary list plus exactly those secondary records having no
same-date primary record within strictly less than 2 km of distance. -/
theorem merge_keeps_primary_and_dedups_secondary (garmin strava : List ActivityRecord) :
    (∀ r ∈ garmin, r ∈ merge_activity_histories garmin strava) ∧
    List.Perm (merge_activity_histories garmin strava)
      (garmin ++ strava.filter (fun s => !(is_duplicate_of_garmin garmin s))) ∧
    (∀ s : ActivityRecord, (is_duplicate_of_garmin garmin s = false) ↔
      ¬ ∃ g ∈ garmin, g.date = s.date ∧ |g.distance_km - s.distance_km| < 2) := by
  refine ⟨?_, List.perm_insertionSort _ _, ?_⟩
  · intro r hr
    rw [merge_activity_histories, List.mem_insertionSort]
    exact List.mem_append_left _ hr
  · intro s
    simp [is_duplicate_of_garmin, List.any_eq_true, not_exists]

/-- Witness for C1 at a concrete input: the primary record survives the merge
against a same-day similar-distance secondary record. -/
theorem merge_keeps_primary_witness :
    recJan ∈ merge_activity_histories [recJan] [recSameDayNear] :=
  (merge_keeps_primary_and_dedups_secondary [recJan] [recSameDayNear]).1 recJan (by simp)

/-- C8 counterexample: with an empty secondary list the merger still re-sorts,
so a primary list that is not already in descending date order is returned in a
different order. -/
theorem merge_empty_secondary_not_identity :
    merge_activity_histories [recJan, recFeb] [] ≠ [recJan, recFeb] := by decide

/-- strLtB decides the strict order of the Mathlib String linear order. -/
theorem strLtB_iff (x y : String) : strLtB x y = true ↔ x < y := by
  unfold strLtB
  rw [decide_eq_true_iff]
  exact Iff.symm String.lt_iff_toList_lt

/-- Equality of the character data decides string equality. -/
theorem strEq_data_iff (x y : String) : x.data = y.data ↔ x = y :=
  String.toList_inj

/-- strLeB decides the non-strict order of the Mathlib String linear order. -/
theorem strLeB_iff (x y : String) : strLeB x y = true ↔ x ≤ y := by
  unfold strLeB
  rw [Bool.or_eq_true, strLtB_iff, decide_eq_true_iff, strEq_data_iff]
  exact Iff.symm le_iff_lt_or_eq

/-- The sort relation of the merger reads: the key `(date, startTimeLocal)` of
the second record is lexicographically at most the key of the first, so that a
sort under it is descending by that key. -/
theorem actSortKeyLE_iff (a b : ActivityRecord) :
    actSortKeyLE a b = true ↔
      (b.date < a.date ∨ (b.date = a.date ∧ b.startTimeLocal ≤ a.startTimeLocal)) := by
  unfold actSortKeyLE
  rw [Bool.or_eq_true, Bool.and_eq_true, strLtB_iff, strLeB_iff, beq_iff_eq]

instance : IsTotal ActivityRecord (fun a b => actSortKeyLE a b = true) := by
  refine ⟨fun a b => ?_⟩
  rw [actSortKeyLE_iff, actSortKeyLE_iff]
  rcases lt_trichotomy a.date b.date with h | h | h
  · exact Or.inr (Or.inl h)
  · rcases le_total a.startTimeLocal b.startTimeLocal with hs | hs
    · exact Or.inr (Or.inr ⟨h, hs⟩)
    · exact Or.inl (Or.inr ⟨h.symm, hs⟩)
  · exact Or.inl (Or.inl h)

instance : IsTrans ActivityRecord (fun a b => actSortKeyLE a b = true) := by
  refine ⟨fun a b c hab hbc => ?_⟩
  rw [actSortKeyLE_iff] at hab hbc ⊢
  rcases hab with h1 | ⟨h1, h1s⟩ <;> rcases hbc with h2 | ⟨h2, h2s⟩
  · exact Or.inl (lt_trans h2 h1)
  · refine Or.inl ?_
    rw [h2]
    exact h1
  · refine Or.inl ?_
    rw [← h1]
    exact h2
  · exact Or.inr ⟨h2.trans h1, le_trans h2s h1s⟩

/-- C8 amended: with an empty secondary list the merger returns a permutation
of the primary list, sorted descending by the `(date, startTimeLocal)` key of
the final sort relation (characterized below in terms of the string order),
and the result equals the primary list exactly when that list is already
sorted in this order. -/
theorem merge_empty_secondary_perm (P : List ActivityRecord) :
    List.Perm (merge_activity_histories P []) P ∧
    List.Sorted (fun a b => actSortKeyLE a b = true) (merge_activity_histories P []) ∧
    (∀ a b : ActivityRecord, actSortKeyLE a b = true ↔
      (b.date < a.date ∨ (b.date = a.date ∧ b.startTimeLocal ≤ a.startTimeLocal))) ∧
    (merge_activity_histories P [] = P ↔
      List.Sorted (fun a b => actSortKeyLE a b = true) P) := by
  have hsorted : List.Sorted (fun a b => actSortKeyLE a b = true)
      (merge_activity_histories P []) := by
    unfold merge_activity_histories
    exact List.sorted_insertionSort _ _
  refine ⟨?_, hsorted, actSortKeyLE_iff, ?_, ?_⟩
  · simpa [merge_activity_histories] using
      List.perm_insertionSort (fun a b => actSortKeyLE a b = true) P
  · intro h
    rw [← h]
    exact hsorted
  · intro h
    rw [merge_activity_histories]
    simpa using h.insertionSort_eq

/-- Witness for C8 amended: a two-record list already sorted descending is
returned unchanged, and sorting applies to the unsorted variant. -/
theorem merge_empty_secondary_perm_witness :
    merge_activity_histories [recFeb, recJan] [] = [recFeb, recJan] :=
  (merge_empty_secondary_perm [recFeb, recJan]).2.2.2.mpr (by decide)

/-- pyRound yields a nearest integer: it is within one half of its argument. -/
theorem pyRound_near (q : ℚ) : |(pyRound q : ℚ) - q| ≤ 1/2 := by
  unfold pyRound
  have h0 : (0:ℚ) ≤ q - (⌊q⌋ : ℚ) := by
    have := Int.floor_le q
    linarith
  have h1 : q - (⌊q⌋ : ℚ) < 1 := by
    have := Int.lt_floor_add_one q
    linarith
  split_ifs with ha hb hc <;>
    simp only [abs_le] <;> push_cast <;> constructor <;> linarith

/-- The comparison sample of `build_historical_comparison` for one metric:
the values of the metric over the comparison corpus that are present and
truthy and strictly positive. -/
def safe_list (value_of : ActivityRecord → Option ℚ) (others : List ActivityRecord) :
    List ℚ :=
  others.filterMap (fun a =>
    match value_of a with
    | some v => if v ≠ 0 ∧ 0 < v then some v else none
    | none => none)

/-- Python `avg` helper of the comparator. -/
def listAvg (lst : List ℚ) : ℚ :=
  if lst.isEmpty then 0 else pyRound1 (lst.sum / lst.length)

/-- Python `min` over a nonempty list (0 sentinel on empty, guarded by callers). -/
def listMin : List ℚ → ℚ
  | [] => 0
  | h :: t => t.foldl min h

/-- Python `max` over a nonempty list (0 sentinel on empty, guarded by callers). -/
def listMax : List ℚ → ℚ
  | [] => 0
  | h :: t => t.foldl max h

/-- `pct_rank(value, lst)` of `build_historical_comparison`. -/
def pct_rank : Option ℚ → List ℚ → Option ℤ
  | none, _ => none
  | some v, lst =>
    if lst.isEmpty ∨ v = 0 ∨ v ≤ 0 then none
    else some (pyRound ((lst.countP (fun x => decide (x < v)) : ℚ) / (lst.length : ℚ) * 100))

/-- One per-metric entry of the comparison output. -/
structure MetricStat where
  avg : ℚ
  min : ℚ
  max : ℚ
  thisRide : ℚ
  rank : Option ℤ
  deriving DecidableEq, Repr

/-- `build_stat(key, this_val)` of `build_historical_comparison`. -/
def build_stat (value_of : ActivityRecord → Option ℚ) (others : List ActivityRecord)
    (this_val : Option ℚ) : MetricStat :=
  let lst := safe_list value_of others
  { avg := listAvg lst
    min := if lst.isEmpty then 0 else pyRound1 (listMin lst)
    max := if lst.isEmpty then 0 else pyRound1 (listMax lst)
    thisRide :=
      match this_val with
      | some v => if v = 0 then 0 else pyRound1 v
      | none => 0
    rank := pct_rank this_val lst }

/-- The Historical Comparison Result. -/
structure ComparisonResult where
  totalRides : ℕ
  comparedWith : ℕ
  stats : List (String × MetricStat)
  deriving DecidableEq, Repr

/-- Metric accessor for `distance_km` (always present on a record). -/
def getDistanceKm (a : ActivityRecord) : Option ℚ := some a.distance_km

/-- Metric accessor for `duration_s`. -/
def getDurationS (a : ActivityRecord) : Option ℚ := some a.duration_s

/-- Metric accessor for `avg_speed_kmh`. -/
def getAvgSpeedKmh (a : ActivityRecord) : Option ℚ := some a.avg_speed_kmh

/-- Metric accessor for `avg_hr` (nullable). -/
def getAvgHr (a : ActivityRecord) : Option ℚ := a.avg_hr

/-- Metric accessor for `elevation_gain_m`. -/
def getElevationGainM (a : ActivityRecord) : Option ℚ := some a.elevation_gain_m

/-- Metric accessor for `calories`. -/
def getCalories (a : ActivityRecord) : Option ℚ := some a.calories

/-- Metric accessor for `grit` (nullable). -/
def getGrit (a : ActivityRecord) : Option ℚ := a.grit

/-- Metric accessor for `avg_flow` (nullable). -/
def getAvgFlow (a : ActivityRecord) : Option ℚ := a.avg_flow

/-- The comparison corpus of `build_historical_comparison`: the local variable
`others`, the corpus without the records sharing the target activityId. -/
def comparison_others (latest : ActivityRecord) (all_rides : List ActivityRecord) :
    List ActivityRecord :=
  all_rides.filter (fun a => decide (a.activityId ≠ latest.activityId))

/-- `build_historical_comparison(latest, all_rides)`. -/
def build_historical_comparison (latest : ActivityRecord) (all_rides : List ActivityRecord) :
    ComparisonResult :=
  if (comparison_others latest all_rides).isEmpty then
    { totalRides := all_rides.length, comparedWith := 0, stats := [] }
  else
    { totalRides := all_rides.length
      comparedWith := (comparison_others latest all_rides).length
      stats :=
        [("distance", build_stat getDistanceKm (comparison_others latest all_rides) (getDistanceKm latest)),
         ("duration", build_stat getDurationS (comparison_others latest all_rides) (getDurationS latest)),
         ("speed", build_stat getAvgSpeedKmh (comparison_others latest all_rides) (getAvgSpeedKmh latest)),
         ("heartRate", build_stat getAvgHr (comparison_others latest all_rides) (getAvgHr latest)),
         ("elevation", build_stat getElevationGainM (comparison_others latest all_rides) (getElevationGainM latest)),
         ("calories", build_stat getCalories (comparison_others latest all_rides) (getCalories latest)),
         ("grit", build_stat getGrit (comparison_others latest all_rides) (getGrit latest)),
         ("flow", build_stat getAvgFlow (comparison_others latest all_rides) (getAvgFlow latest))] }

/-- Outcome of reading the Strava cache file: absent, unreadable, or a parsed
entry with its `fetched_at` timestamp in seconds and its activity list. -/
inductive StravaCacheState
  | missing
  | malformed
  | entry (fetched_at : ℚ) (activities : List ActivityRecord)
  deriving DecidableEq

/-- The cache-read phase of `fetch_strava_activities`: return the cached
activities when a well-formed entry exists whose age in hours is strictly
below 12, otherwise fall through to a refetch (modelled as `none`). -/
def readStravaCache (cache : StravaCacheState) (now : ℚ) :
    Option (List ActivityRecord) :=
  match cache with
  | .missing => none
  | .malformed => none
  | .entry fetched_at activities =>
    if (now - fetched_at) / 3600 < 12 then some activities else none

/-- Helper: the entry filter of `safe_list` keeps exactly the present strictly
positive values. -/
theorem safe_list_mem (value_of : ActivityRecord → Option ℚ)
    (rs : List ActivityRecord) (v : ℚ) :
    v ∈ safe_list value_of rs ↔ ∃ a ∈ rs, value_of a = some v ∧ 0 < v := by
  unfold safe_list
  rw [List.mem_filterMap]
  constructor
  · rintro ⟨a, ha, hf⟩
    refine ⟨a, ha, ?_⟩
    cases hv : value_of a with
    | none => simp [hv] at hf
    | some w =>
      simp only [hv] at hf
      by_cases hc : w ≠ 0 ∧ 0 < w
      · rw [if_pos hc] at hf
        cases hf
        exact ⟨rfl, hc.2⟩
      · rw [if_neg hc] at hf
        exact absurd hf (by simp)
  · rintro ⟨a, ha, hv, hpos⟩
    refine ⟨a, ha, ?_⟩
    simp only [hv]
    rw [if_pos ⟨ne_of_gt hpos, hpos⟩]

/-- C2: the rank of a metric is `None` exactly when the sample is empty or the
target value is absent or non-positive; otherwise it is the percentage of the
sample strictly below the target value rounded to a nearest integer (ties to
even); the sample holds exactly the present strictly positive corpus values;
and on sample `[10,12,14,16,18]` with target value `15` the rank is `60`. -/
theorem pct_rank_matches_spec :
    (∀ (value : Option ℚ) (lst : List ℚ),
      pct_rank value lst = none ↔
        lst = [] ∨ value = none ∨ ∃ q, value = some q ∧ q ≤ 0) ∧
    (∀ (q : ℚ) (lst : List ℚ), 0 < q → lst ≠ [] →
      pct_rank (some q) lst =
        some (pyRound ((lst.countP (fun x => decide (x < q)) : ℚ) / (lst.length : ℚ) * 100))) ∧
    (∀ (q : ℚ) (lst : List ℚ) (r : ℤ), pct_rank (some q) lst = some r →
      |(r : ℚ) - (lst.countP (fun x => decide (x < q)) : ℚ) / (lst.length : ℚ) * 100| ≤ 1/2) ∧
    (∀ (value_of : ActivityRecord → Option ℚ) (rs : List ActivityRecord) (v : ℚ),
      v ∈ safe_list value_of rs ↔ ∃ a ∈ rs, value_of a = some v ∧ 0 < v) ∧
    pct_rank (some 15) [10, 12, 14, 16, 18] = some 60 := by
  have hsome : ∀ (q : ℚ) (lst : List ℚ), 0 < q → lst ≠ [] →
      pct_rank (some q) lst =
        some (pyRound ((lst.countP (fun x => decide (x < q)) : ℚ) / (lst.length : ℚ) * 100)) := by
    intro q lst hq hne
    simp only [pct_rank]
    rw [if_neg (by push_neg; exact ⟨by simpa [List.isEmpty_iff] using hne, ne_of_gt hq, hq⟩)]
  refine ⟨?_, hsome, ?_, safe_list_mem, ?_⟩
  · intro value lst
    cases value with
    | none => simp [pct_rank]
    | some q =>
      simp only [pct_rank]
      by_cases hc : lst.isEmpty = true ∨ q = 0 ∨ q ≤ 0
      · rw [if_pos hc]
        constructor
        · intro _
          rcases hc with hc | hc | hc
          · exact Or.inl (List.isEmpty_iff.mp hc)
          · exact Or.inr (Or.inr ⟨q, rfl, le_of_eq hc⟩)
          · exact Or.inr (Or.inr ⟨q, rfl, hc⟩)
        · intro _
          rfl
      · rw [if_neg hc]
        push_neg at hc
        constructor
        · intro h
          exact absurd h (by simp)
        · rintro (h | h | ⟨q', hq', hle⟩)
          · exact absurd (List.isEmpty_iff.mpr h) hc.1
          · exact Option.noConfusion h
          · cases hq'
            exact absurd hle (not_le.mpr hc.2.2)
  · intro q lst r hr
    simp only [pct_rank] at hr
    by_cases hc : lst.isEmpty = true ∨ q = 0 ∨ q ≤ 0
    · rw [if_pos hc] at hr
      exact absurd hr (by simp)
    · rw [if_neg hc] at hr
      cases hr
      exact pyRound_near _
  · have hcount : List.countP (fun x => decide (x < (15:ℚ))) [10, 12, 14, 16, 18] = 3 := by
      decide
    simp only [pct_rank]
    rw [if_neg (by norm_num), hcount]
    norm_num [pyRound]

/-- Witness for C2: the general sample formula applied at the concrete sample
of the spec example yields the concrete rank value 60. -/
theorem pct_rank_matches_spec_witness :
    pct_rank (some 15) [10, 12, 14, 16, 18] =
      some (pyRound ((List.countP (fun x => decide (x < (15:ℚ))) [10, 12, 14, 16, 18] : ℚ)
        / (([10, 12, 14, 16, 18] : List ℚ).length : ℚ) * 100)) :=
  (pct_rank_matches_spec.2.1) 15 [10, 12, 14, 16, 18] (by norm_num) (by simp)

/-- C10: the comparator removes from the corpus exactly the records whose
activityId equals the one of the target; on an empty remainder it returns
`comparedWith = 0` with an empty stats mapping and `totalRides` equal to the
corpus length; otherwise `comparedWith` is the size of the remainder. -/
theorem build_historical_comparison_corpus (latest : ActivityRecord)
    (all_rides : List ActivityRecord) :
    (build_historical_comparison latest all_rides).totalRides = all_rides.length ∧
    (∀ a ∈ all_rides,
      a ∈ comparison_others latest all_rides ↔ a.activityId ≠ latest.activityId) ∧
    (comparison_others latest all_rides = [] →
      build_historical_comparison latest all_rides =
        { totalRides := all_rides.length, comparedWith := 0, stats := [] }) ∧
    (comparison_others latest all_rides ≠ [] →
      (build_historical_comparison latest all_rides).comparedWith =
        (comparison_others latest all_rides).length) := by
  refine ⟨?_, ?_, ?_, ?_⟩
  · unfold build_historical_comparison
    split_ifs <;> rfl
  · intro a ha
    simp [comparison_others, List.mem_filter, ha]
  · intro h
    unfold build_historical_comparison
    rw [if_pos (List.isEmpty_iff.mpr h)]
  · intro h
    unfold build_historical_comparison
    rw [if_neg (fun hc => h (List.isEmpty_iff.mp hc))]

/-- Witness for C10: a corpus holding only a record sharing the target
activityId collapses to an empty comparison with `totalRides` still 1. -/
theorem build_historical_comparison_corpus_witness :
    build_historical_comparison recJan [recJan] =
      { totalRides := 1, comparedWith := 0, stats := [] } :=
  (build_historical_comparison_corpus recJan [recJan]).2.2.1 (by decide)

/-- C9: a cache read misses exactly when the entry is absent, malformed, or at
least 12 hours old, and otherwise returns the cached activities; at the
boundary, an entry aged 12 hours and 1 second misses while an entry aged 11
hours 59 minutes hits. -/
theorem strava_cache_read_boundary (cache : StravaCacheState) (now : ℚ) :
    (readStravaCache cache now = none ↔
      cache = StravaCacheState.missing ∨ cache = StravaCacheState.malformed ∨
        ∃ f acts, cache = StravaCacheState.entry f acts ∧ 12 * 3600 ≤ now - f) ∧
    (∀ f acts, cache = StravaCacheState.entry f acts → now - f < 12 * 3600 →
      readStravaCache cache now = some acts) ∧
    (∀ acts : List ActivityRecord,
      readStravaCache (StravaCacheState.entry (now - (12 * 3600 + 1)) acts) now = none) ∧
    (∀ acts : List ActivityRecord,
      readStravaCache (StravaCacheState.entry (now - (11 * 3600 + 59 * 60)) acts) now
        = some acts) := by
  have hiff : ∀ (f : ℚ), (now - f) / 3600 < 12 ↔ now - f < 12 * 3600 := by
    intro f
    rw [div_lt_iff₀ (by norm_num : (0:ℚ) < 3600)]
  refine ⟨?_, ?_, ?_, ?_⟩
  · cases cache with
    | missing => simp [readStravaCache]
    | malformed => simp [readStravaCache]
    | entry f acts =>
      simp only [readStravaCache]
      by_cases hc : (now - f) / 3600 < 12
      · rw [if_pos hc]
        constructor
        · intro h
          exact absurd h (by simp)
        · rintro (h | h | ⟨f', acts', he, hage⟩)
          · exact StravaCacheState.noConfusion h
          · exact StravaCacheState.noConfusion h
          · cases he
            rw [hiff] at hc
            linarith
      · rw [if_neg hc]
        rw [hiff] at hc
        constructor
        · intro _
          exact Or.inr (Or.inr ⟨f, acts, rfl, not_lt.mp hc⟩)
        · intro _
          rfl
  · intro f acts he hage
    subst he
    simp only [readStravaCache]
    rw [if_pos ((hiff f).mpr hage)]
  · intro acts
    simp only [readStravaCache]
    rw [if_neg (by rw [hiff]; intro h; linarith)]
  · intro acts
    simp only [readStravaCache]
    rw [if_pos (by rw [hiff]; linarith)]

/-- Witness for C9: a fresh entry one hour old is returned as a hit. -/
theorem strava_cache_read_boundary_witness :
    readStravaCache (StravaCacheState.entry 0 [recJan]) 3600 = some [recJan] :=
  (strava_cache_read_boundary (StravaCacheState.entry 0 [recJan]) 3600).2.1 0 [recJan]
    rfl (by norm_num)

/-- One auxiliary Bosch activity entry as assembled by `fetch_bosch_activities`. -/
structure BoschActivity where
  date : String
  start_time : String
  duration_s : ℚ
  distance_km : ℚ
  avg_power : Option ℚ
  max_power : Option ℚ
  avg_cadence : Option ℚ
  max_cadence : Option ℚ
  deriving DecidableEq, Repr

/-- The cycling keyword list of `enrich_activities_with_bosch`. -/
def cyclingKeywords : List String := ["biking", "cycling", "ride", "mountain", "vtt", "ebike"]

/-- The cycling classification of `enrich_activities_with_bosch`: case-insensitive
substring match of the keywords against the `activityType` field. -/
def isCyclingType (activityType : String) : Bool :=
  cyclingKeywords.any (fun kw => listInfixB kw.data (lowerData activityType))

/-- The similarity ratio `min(a,b)/max(a,b) if max(a,b) > 0 else 0`. -/
def sim_ratio (a b : ℚ) : ℚ := if 0 < max a b then min a b / max a b else 0

/-- The match score: mean of duration similarity and distance similarity. -/
def matchScore (act : ActivityRecord) (bosch : BoschActivity) : ℚ :=
  (sim_ratio act.duration_s bosch.duration_s + sim_ratio act.distance_km bosch.distance_km) / 2

/-- The three `continue` filters of the enrichment scan: same date, cycling
activity type, and no present power value. -/
def isEnrichCandidate (bosch : BoschActivity) (act : ActivityRecord) : Bool :=
  act.date == bosch.date && isCyclingType act.activityType && act.avg_power.isNone

/-- The scan of the enrichment loop: track the best matching index and score,
replacing the running best when a candidate scores above 0.6 and above the
running best score. -/
def findBestMatch (b : BoschActivity) :
    List ActivityRecord → ℕ → Option ℕ × ℚ → Option ℕ × ℚ
  | [], _, st => st
  | a :: rest, i, (bm, bs) =>
    if isEnrichCandidate b a = true ∧ (0.6:ℚ) < matchScore a b ∧ bs < matchScore a b
    then findBestMatch b rest (i + 1) (some i, matchScore a b)
    else findBestMatch b rest (i + 1) (bm, bs)

/-- Fill `avg_power` from the Bosch record when the Bosch value is truthy. -/
def fillAvgPower (b : BoschActivity) (act : ActivityRecord) : ActivityRecord :=
  if pyTruthy b.avg_power then { act with avg_power := some (pyRound1 (pyOr0 b.avg_power)) }
  else act

/-- Fill `max_power` from the Bosch record when the Bosch value is truthy.
No check of the current value is performed. -/
def fillMaxPower (b : BoschActivity) (act : ActivityRecord) : ActivityRecord :=
  if pyTruthy b.max_power then { act with max_power := some (pyRound1 (pyOr0 b.max_power)) }
  else act

/-- Fill `avg_cadence` when the Bosch value is truthy and the current value is
absent. -/
def fillAvgCadence (b : BoschActivity) (act : ActivityRecord) : ActivityRecord :=
  if pyTruthy b.avg_cadence && act.avg_cadence.isNone
  then { act with avg_cadence := some (pyRound1 (pyOr0 b.avg_cadence)) }
  else act

/-- Fill `max_cadence` when the Bosch value is truthy and the current value is
absent. -/
def fillMaxCadence (b : BoschActivity) (act : ActivityRecord) : ActivityRecord :=
  if pyTruthy b.max_cadence && act.max_cadence.isNone
  then { act with max_cadence := some (pyRound1 (pyOr0 b.max_cadence)) }
  else act

/-- The four sequential fill statements applied to the accepted best match. -/
def applyBoschFill (b : BoschActivity) (act : ActivityRecord) : ActivityRecord :=
  fillMaxCadence b (fillAvgCadence b (fillMaxPower b (fillAvgPower b act)))

/-- One iteration of the outer loop of `enrich_activities_with_bosch`: find the
best match of one Bosch record and, when accepted, update it in place and count
the enrichment. -/
def enrichStep (st : List ActivityRecord × ℕ) (b : BoschActivity) :
    List ActivityRecord × ℕ :=
  match (findBestMatch b st.1 0 (none, 0)).1 with
  | none => st
  | some i =>
    match st.1[i]? with
    | some a => (st.1.set i (applyBoschFill b a), st.2 + 1)
    | none => st

/-- `enrich_activities_with_bosch(activities, bosch_activities)`: the Python
function mutates `activities` in place and returns the count; the embedding
returns the final list together with the count. -/
def enrich_activities_with_bosch (activities : List ActivityRecord)
    (bosch_activities : List BoschActivity) : List ActivityRecord × ℕ :=
  bosch_activities.foldl enrichStep (activities, 0)

/-- Cycling classification as worded by the spec for the enrichment candidate
filter: keyword match against the activityType and the name of the target.
This definition follows the spec wording, for comparison against
`isCyclingType`, which the code applies to `activityType` alone. -/
def specCyclingTypeOrName (act : ActivityRecord) : Bool :=
  cyclingKeywords.any (fun kw =>
    listInfixB kw.data (lowerData act.activityType) ||
    listInfixB kw.data (lowerData act.name))

/-- Invariant of the enrichment scan: the running best score never decreases;
the final state is either the initial state or points at a candidate scoring
above the threshold and above the initial score; and every candidate in the
scanned list scores at most 0.6 or at most the final best score. -/
theorem findBestMatch_invariant (b : BoschActivity) :
    ∀ (l : List ActivityRecord) (i0 : ℕ) (bm : Option ℕ) (bs : ℚ),
      bs ≤ (findBestMatch b l i0 (bm, bs)).2 ∧
      ((findBestMatch b l i0 (bm, bs)) = (bm, bs) ∨
        ∃ j, ∃ h : j < l.length,
          (findBestMatch b l i0 (bm, bs)).1 = some (i0 + j) ∧
          (findBestMatch b l i0 (bm, bs)).2 = matchScore (l.get ⟨j, h⟩) b ∧
          isEnrichCandidate b (l.get ⟨j, h⟩) = true ∧
          (0.6:ℚ) < (findBestMatch b l i0 (bm, bs)).2 ∧
          bs < (findBestMatch b l i0 (bm, bs)).2) ∧
      (∀ j, ∀ h : j < l.length, isEnrichCandidate b (l.get ⟨j, h⟩) = true →
        matchScore (l.get ⟨j, h⟩) b ≤ 0.6 ∨
        matchScore (l.get ⟨j, h⟩) b ≤ (findBestMatch b l i0 (bm, bs)).2) := by
  intro l
  induction l with
  | nil =>
    intro i0 bm bs
    refine ⟨le_refl _, Or.inl rfl, ?_⟩
    intro j h
    exact absurd h (by simp)
  | cons a rest ih =>
    intro i0 bm bs
    by_cases hcond : isEnrichCandidate b a = true ∧ (0.6:ℚ) < matchScore a b ∧
        bs < matchScore a b
    · have heq : findBestMatch b (a :: rest) i0 (bm, bs) =
          findBestMatch b rest (i0 + 1) (some i0, matchScore a b) := by
        simp only [findBestMatch]
        rw [if_pos hcond]
      obtain ⟨ihA, ihB, ihC⟩ := ih (i0 + 1) (some i0) (matchScore a b)
      rw [heq]
      refine ⟨le_trans (le_of_lt hcond.2.2) ihA, ?_, ?_⟩
      · rcases ihB with hstay | ⟨j, hj, h1, h2, h3, h4, h5⟩
        · refine Or.inr ⟨0, by simp, ?_, ?_, ?_, ?_, ?_⟩
          · rw [hstay]
            simp
          · rw [hstay]
            simp
          · exact hcond.1
          · rw [hstay]
            exact hcond.2.1
          · rw [hstay]
            exact hcond.2.2
        · refine Or.inr ⟨j + 1, by simpa using hj, ?_, ?_, ?_, h4, ?_⟩
          · rw [h1]
            congr 1
            omega
          · simpa using h2
          · simpa using h3
          · exact lt_trans hcond.2.2 h5
      · intro j h hcand
        cases j with
        | zero =>
          exact Or.inr ihA
        | succ k =>
          have hk : k < rest.length := by simpa using h
          have := ihC k hk (by simpa using hcand)
          simpa using this
    · have heq : findBestMatch b (a :: rest) i0 (bm, bs) =
          findBestMatch b rest (i0 + 1) (bm, bs) := by
        simp only [findBestMatch]
        rw [if_neg hcond]
      obtain ⟨ihA, ihB, ihC⟩ := ih (i0 + 1) bm bs
      rw [heq]
      refine ⟨ihA, ?_, ?_⟩
      · rcases ihB with hstay | ⟨j, hj, h1, h2, h3, h4, h5⟩
        · exact Or.inl hstay
        · refine Or.inr ⟨j + 1, by simpa using hj, ?_, ?_, ?_, h4, h5⟩
          · rw [h1]
            congr 1
            omega
          · simpa using h2
          · simpa using h3
      · intro j h hcand
        cases j with
        | zero =>
          simp only [List.get] at hcand ⊢
          by_cases hs : matchScore a b ≤ 0.6
          · exact Or.inl hs
          · have hbs : matchScore a b ≤ bs := by
              by_contra hbs
              exact hcond ⟨hcand, lt_of_not_le hs, lt_of_not_le hbs⟩
            exact Or.inr (le_trans hbs ihA)
        | succ k =>
          have hk : k < rest.length := by simpa using h
          have := ihC k hk (by simpa using hcand)
          simpa using this

/-- Selection property of the scan started from the empty best state: an
accepted index is a candidate scoring above 0.6, with the returned score, and
no candidate beats it. -/
theorem findBestMatch_select (b : BoschActivity) (acts : List ActivityRecord)
    (i : ℕ) (bs : ℚ) (hfb : findBestMatch b acts 0 (none, 0) = (some i, bs)) :
    ∃ h : i < acts.length,
      isEnrichCandidate b (acts.get ⟨i, h⟩) = true ∧
      (0.6:ℚ) < matchScore (acts.get ⟨i, h⟩) b ∧
      bs = matchScore (acts.get ⟨i, h⟩) b ∧
      ∀ j, ∀ hj : j < acts.length, isEnrichCandidate b (acts.get ⟨j, hj⟩) = true →
        matchScore (acts.get ⟨j, hj⟩) b ≤ 0.6 ∨
        matchScore (acts.get ⟨j, hj⟩) b ≤ matchScore (acts.get ⟨i, h⟩) b := by
  obtain ⟨hA, hB, hC⟩ := findBestMatch_invariant b acts 0 none 0
  rcases hB with hstay | ⟨j, hj, h1, h2, h3, h4, h5⟩
  · rw [hfb] at hstay
    simp at hstay
  · rw [hfb] at h1 h2 h4
    simp only [Prod.fst, Prod.snd] at h1 h2 h4
    have hij : i = j := by
      have := Option.some.inj h1
      omega
    subst hij
    refine ⟨hj, h3, ?_, h2, ?_⟩
    · rw [← h2]
      exact h4
    · intro k hk hcand
      have := hC k hk hcand
      rw [hfb] at this
      simp only [Prod.snd] at this
      rw [h2] at this
      exact this

/-- When the scan accepts nothing, every candidate scores at most 0.6. -/
theorem findBestMatch_rejects_all (b : BoschActivity) (acts : List ActivityRecord)
    (h : (findBestMatch b acts 0 (none, 0)).1 = none) :
    ∀ j, ∀ hj : j < acts.length, isEnrichCandidate b (acts.get ⟨j, hj⟩) = true →
      matchScore (acts.get ⟨j, hj⟩) b ≤ 0.6 := by
  obtain ⟨hA, hB, hC⟩ := findBestMatch_invariant b acts 0 none 0
  intro j hj hcand
  rcases hB with hstay | ⟨k, hk, h1, h2, h3, h4, h5⟩
  · have hsc := hC j hj hcand
    rw [hstay] at hsc
    rcases hsc with hle | hle
    · exact hle
    · exact le_trans hle (by norm_num)
  · rw [h1] at h
    exact Option.noConfusion h

/-- A similarity ratio involving a zero quantity is zero. -/
theorem sim_ratio_zero (x y : ℚ) (h : x = 0 ∨ y = 0) : sim_ratio x y = 0 := by
  unfold sim_ratio
  rcases h with h | h <;> subst h
  · split_ifs with hm
    · have hy : 0 < y := by
        rcases lt_max_iff.mp hm with h0 | h0
        · exact absurd h0 (lt_irrefl 0)
        · exact h0
      rw [min_eq_left hy.le]
      exact zero_div _
    · rfl
  · split_ifs with hm
    · have hx : 0 < x := by
        rcases lt_max_iff.mp hm with h0 | h0
        · exact h0
        · exact absurd h0 (lt_irrefl 0)
      rw [min_eq_right hx.le]
      exact zero_div _
    · rfl

/-- C3 amended: the enricher scores exactly the targets sharing the Bosch
record date, classified cycling by keyword match against activityType alone,
and lacking a power value; the score is the mean of the duration and distance
similarity ratios, each ratio being zero on a zero value; an accepted match is
a candidate scoring strictly above 0.6 that no other candidate beats, and when
no candidate exceeds 0.6 nothing is accepted. -/
theorem enrich_candidate_selection (b : BoschActivity) (acts : List ActivityRecord) :
    (∀ a : ActivityRecord, isEnrichCandidate b a = true ↔
      a.date = b.date ∧ isCyclingType a.activityType = true ∧ a.avg_power = none) ∧
    (∀ a : ActivityRecord, matchScore a b =
      (sim_ratio a.duration_s b.duration_s + sim_ratio a.distance_km b.distance_km) / 2) ∧
    (∀ x y : ℚ, x = 0 ∨ y = 0 → sim_ratio x y = 0) ∧
    (∀ i bs, findBestMatch b acts 0 (none, 0) = (some i, bs) →
      ∃ h : i < acts.length,
        isEnrichCandidate b (acts.get ⟨i, h⟩) = true ∧
        (0.6:ℚ) < matchScore (acts.get ⟨i, h⟩) b ∧
        ∀ j, ∀ hj : j < acts.length, isEnrichCandidate b (acts.get ⟨j, hj⟩) = true →
          matchScore (acts.get ⟨j, hj⟩) b ≤ 0.6 ∨
          matchScore (acts.get ⟨j, hj⟩) b ≤ matchScore (acts.get ⟨i, h⟩) b) ∧
    ((findBestMatch b acts 0 (none, 0)).1 = none →
      ∀ j, ∀ hj : j < acts.length, isEnrichCandidate b (acts.get ⟨j, hj⟩) = true →
        matchScore (acts.get ⟨j, hj⟩) b ≤ 0.6) := by
  refine ⟨?_, fun a => rfl, sim_ratio_zero, ?_, findBestMatch_rejects_all b acts⟩
  · intro a
    unfold isEnrichCandidate
    simp [Bool.and_eq_true, beq_iff_eq, Option.isNone_iff_eq_none, and_assoc]
  · intro i bs hfb
    obtain ⟨h, hcand, hsc, _, hmax⟩ := findBestMatch_select b acts i bs hfb
    exact ⟨h, hcand, hsc, hmax⟩

/-- The record with the four enrichment-writable fields blanked: equality of
frames states that every other field is untouched. -/
def frameOf (r : ActivityRecord) : ActivityRecord :=
  { r with avg_power := none, max_power := none, avg_cadence := none, max_cadence := none }

/-- Evolution allowed to one record by the enricher: every field outside
`avg_power`, `max_power`, `avg_cadence`, `max_cadence` is unchanged, and the
three guarded fields keep any present value (`max_power` has no guard in the
code and therefore no preservation clause here). -/
def recEvolves (r r2 : ActivityRecord) : Prop :=
  frameOf r2 = frameOf r ∧
  (r.avg_power ≠ none → r2.avg_power = r.avg_power) ∧
  (r.avg_cadence ≠ none → r2.avg_cadence = r.avg_cadence) ∧
  (r.max_cadence ≠ none → r2.max_cadence = r.max_cadence)

/-- recEvolves is reflexive. -/
theorem recEvolves_refl (r : ActivityRecord) : recEvolves r r :=
  ⟨rfl, fun _ => rfl, fun _ => rfl, fun _ => rfl⟩

/-- recEvolves is transitive. -/
theorem recEvolves_trans {a b c : ActivityRecord} (h1 : recEvolves a b)
    (h2 : recEvolves b c) : recEvolves a c := by
  refine ⟨h2.1.trans h1.1, ?_, ?_, ?_⟩
  · intro hp
    have hb := h1.2.1 hp
    rw [h2.2.1 (by rw [hb]; exact hp), hb]
  · intro hp
    have hb := h1.2.2.1 hp
    rw [h2.2.2.1 (by rw [hb]; exact hp), hb]
  · intro hp
    have hb := h1.2.2.2 hp
    rw [h2.2.2.2 (by rw [hb]; exact hp), hb]

/-- Filling avg_power evolves a record that lacks a power value. -/
theorem fillAvgPower_evolves (b : BoschActivity) (act : ActivityRecord)
    (hp : act.avg_power = none) : recEvolves act (fillAvgPower b act) := by
  unfold fillAvgPower
  split_ifs with h
  · exact ⟨rfl, fun hne => absurd hp hne, fun _ => rfl, fun _ => rfl⟩
  · exact recEvolves_refl act

/-- Filling max_power always evolves a record (max_power is unrestricted). -/
theorem fillMaxPower_evolves (b : BoschActivity) (act : ActivityRecord) :
    recEvolves act (fillMaxPower b act) := by
  unfold fillMaxPower
  split_ifs with h
  · exact ⟨rfl, fun _ => rfl, fun _ => rfl, fun _ => rfl⟩
  · exact recEvolves_refl act

/-- Filling avg_cadence evolves any record: the guard protects a present value. -/
theorem fillAvgCadence_evolves (b : BoschActivity) (act : ActivityRecord) :
    recEvolves act (fillAvgCadence b act) := by
  unfold fillAvgCadence
  split_ifs with h
  · have hnone : act.avg_cadence = none := by
      simp only [Bool.and_eq_true, Option.isNone_iff_eq_none] at h
      exact h.2
    exact ⟨rfl, fun _ => rfl, fun hne => absurd hnone hne, fun _ => rfl⟩
  · exact recEvolves_refl act

/-- Filling max_cadence evolves any record: the guard protects a present value. -/
theorem fillMaxCadence_evolves (b : BoschActivity) (act : ActivityRecord) :
    recEvolves act (fillMaxCadence b act) := by
  unfold fillMaxCadence
  split_ifs with h
  · have hnone : act.max_cadence = none := by
      simp only [Bool.and_eq_true, Option.isNone_iff_eq_none] at h
      exact h.2
    exact ⟨rfl, fun _ => rfl, fun _ => rfl, fun hne => absurd hnone hne⟩
  · exact recEvolves_refl act

/-- The full fill sequence evolves a record lacking a power value. -/
theorem applyBoschFill_evolves (b : BoschActivity) (act : ActivityRecord)
    (hp : act.avg_power = none) : recEvolves act (applyBoschFill b act) :=
  recEvolves_trans
    (recEvolves_trans
      (recEvolves_trans (fillAvgPower_evolves b act hp)
        (fillMaxPower_evolves b (fillAvgPower b act)))
      (fillAvgCadence_evolves b (fillMaxPower b (fillAvgPower b act))))
    (fillMaxCadence_evolves b (fillAvgCadence b (fillMaxPower b (fillAvgPower b act))))

/-- recEvolves lifted pointwise to identical lists. -/
theorem forall2_recEvolves_refl (l : List ActivityRecord) :
    List.Forall₂ recEvolves l l :=
  List.forall₂_same.mpr (fun x _ => recEvolves_refl x)

/-- Pointwise recEvolves composes. -/
theorem forall2_recEvolves_trans : ∀ {a b c : List ActivityRecord},
    List.Forall₂ recEvolves a b → List.Forall₂ recEvolves b c →
    List.Forall₂ recEvolves a c := by
  intro a b c h1
  induction h1 generalizing c with
  | nil =>
    intro h2
    cases h2
    exact List.Forall₂.nil
  | cons hR hF ih =>
    intro h2
    cases h2 with
    | cons hR2 hF2 => exact List.Forall₂.cons (recEvolves_trans hR hR2) (ih hF2)

/-- Updating one entry to an evolution of itself evolves the list pointwise. -/
theorem forall2_recEvolves_set (l : List ActivityRecord) (j : ℕ) (x : ActivityRecord)
    (hx : ∀ h : j < l.length, recEvolves (l.get ⟨j, h⟩) x) :
    List.Forall₂ recEvolves l (l.set j x) := by
  induction l generalizing j with
  | nil => exact List.Forall₂.nil
  | cons hd tl ih =>
    cases j with
    | zero =>
      simp only [List.set]
      exact List.Forall₂.cons (hx (by simp)) (forall2_recEvolves_refl tl)
    | succ k =>
      simp only [List.set]
      refine List.Forall₂.cons (recEvolves_refl hd) (ih k ?_)
      intro h
      have := hx (by simpa using Nat.succ_lt_succ h)
      simpa using this

/-- One enrichment iteration evolves the activity list pointwise. -/
theorem enrichStep_forall2 (st : List ActivityRecord × ℕ) (b : BoschActivity) :
    List.Forall₂ recEvolves st.1 (enrichStep st b).1 := by
  cases hfb : (findBestMatch b st.1 0 (none, 0)).1 with
  | none =>
    simp only [enrichStep, hfb]
    exact forall2_recEvolves_refl st.1
  | some i =>
    cases hget : st.1[i]? with
    | none =>
      simp only [enrichStep, hfb, hget]
      exact forall2_recEvolves_refl st.1
    | some a =>
      have hpair : findBestMatch b st.1 0 (none, 0)
          = (some i, (findBestMatch b st.1 0 (none, 0)).2) := by
        rw [← hfb]
      obtain ⟨hlt, hcand, _, _, _⟩ :=
        findBestMatch_select b st.1 i (findBestMatch b st.1 0 (none, 0)).2 hpair
      have hget2 := hget
      rw [List.getElem?_eq_some] at hget2
      obtain ⟨hlt2, ha⟩ := hget2
      have hpnone : a.avg_power = none := by
        unfold isEnrichCandidate at hcand
        simp only [Bool.and_eq_true, Option.isNone_iff_eq_none] at hcand
        rw [← ha]
        simpa using hcand.2
      simp only [enrichStep, hfb, hget]
      refine forall2_recEvolves_set st.1 i (applyBoschFill b a) ?_
      intro h
      have hga : st.1.get ⟨i, h⟩ = a := by simpa using ha
      rw [hga]
      exact applyBoschFill_evolves b a hpnone

/-- The full enrichment loop evolves the activity list pointwise. -/
theorem enrich_loop_forall2 (bl : List BoschActivity) :
    ∀ (acts : List ActivityRecord) (c : ℕ),
      List.Forall₂ recEvolves acts (List.foldl enrichStep (acts, c) bl).1 := by
  induction bl with
  | nil =>
    intro acts c
    exact forall2_recEvolves_refl acts
  | cons b rest ih =>
    intro acts c
    have h1 := enrichStep_forall2 (acts, c) b
    have h2 := ih (enrichStep (acts, c) b).1 (enrichStep (acts, c) b).2
    simp only [List.foldl]
    rw [Prod.mk.eta] at h2
    exact forall2_recEvolves_trans h1 h2

/-- C4 amended: enrichment changes at most the four power and cadence fields of
each target record; `avg_power`, `avg_cadence` and `max_cadence` keep any
present value, while `max_power` carries no such guarantee (it is overwritten
whenever the matched Bosch record carries a truthy max_power). -/
theorem enrich_frame_effect (activities : List ActivityRecord)
    (bosch_activities : List BoschActivity) :
    List.Forall₂ recEvolves activities
      (enrich_activities_with_bosch activities bosch_activities).1 :=
  enrich_loop_forall2 bosch_activities activities 0

/-- C5: a target holding a power value before enrichment holds the same value
afterwards, for every list of auxiliary records. -/
theorem enrich_never_overwrites_avg_power (activities : List ActivityRecord)
    (bosch_activities : List BoschActivity) (i : ℕ) (v : ℚ)
    (h1 : i < activities.length)
    (h2 : i < (enrich_activities_with_bosch activities bosch_activities).1.length)
    (hp : (activities.get ⟨i, h1⟩).avg_power = some v) :
    ((enrich_activities_with_bosch activities bosch_activities).1.get ⟨i, h2⟩).avg_power
      = some v := by
  have hF := enrich_loop_forall2 bosch_activities activities 0
  rw [List.forall₂_iff_get] at hF
  have hR := hF.2 i h1 h2
  have hkeep := hR.2.1 (by rw [List.get_eq_getElem] at hp; simp [hp])
  show ((List.foldl enrichStep (activities, 0) bosch_activities).1.get ⟨i, h2⟩).avg_power
      = some v
  rw [hkeep, hp]

/-- Concrete record holding a power value, for the C5 witness. -/
def recPow : ActivityRecord := { baseRec with avg_power := some 200 }

/-- Witness for C5: a record holding avg_power 200 still holds it after the
enrichment runs. -/
theorem enrich_never_overwrites_avg_power_witness :
    ((enrich_activities_with_bosch [recPow] []).1.get ⟨0, by decide⟩).avg_power
      = some 200 :=
  enrich_never_overwrites_avg_power [recPow] [] 0 200 (by decide) (by decide) (by decide)

/-- Cycling target with a present max_power, matched exactly by the Bosch
record below. -/
def targetC4 : ActivityRecord :=
  { baseRec with
    date := "2024-06-01"
    activityType := "cycling"
    duration_s := 3600
    distance_km := 30
    max_power := some 500 }

/-- Bosch record matching `targetC4` and carrying power values. -/
def boschC4 : BoschActivity :=
  { date := "2024-06-01"
    start_time := ""
    duration_s := 3600
    distance_km := 30
    avg_power := some 250
    max_power := some 600
    avg_cadence := none
    max_cadence := none }

/-- C4 counterexample: the target holds max_power 500 before enrichment and
max_power 600 afterwards: a present value was overwritten. -/
theorem enrich_overwrites_present_max_power :
    targetC4.max_power = some 500 ∧
    (enrich_activities_with_bosch [targetC4] [boschC4]).1.map
      (fun r => r.max_power) = [some 600] := by
  have hscore : matchScore targetC4 boschC4 = 1 := by
    norm_num [matchScore, sim_ratio, targetC4, boschC4, baseRec]
  have hcond : isEnrichCandidate boschC4 targetC4 = true ∧
      (0.6:ℚ) < matchScore targetC4 boschC4 ∧ (0:ℚ) < matchScore targetC4 boschC4 :=
    ⟨by decide, by rw [hscore]; norm_num, by rw [hscore]; norm_num⟩
  have hfb : findBestMatch boschC4 [targetC4] 0 (none, 0)
      = (some 0, matchScore targetC4 boschC4) := by
    simp only [findBestMatch]
    rw [if_pos hcond]
  have hfb1 : (findBestMatch boschC4 [targetC4] 0 (none, 0)).1 = some 0 := by
    rw [hfb]
  have hstep : enrich_activities_with_bosch [targetC4] [boschC4]
      = ([applyBoschFill boschC4 targetC4], 1) := by
    unfold enrich_activities_with_bosch
    simp only [List.foldl]
    simp only [enrichStep, hfb1]
    rfl
  refine ⟨rfl, ?_⟩
  rw [hstep]
  simp only [List.map]
  have happ : (applyBoschFill boschC4 targetC4).max_power = some 600 := by
    unfold applyBoschFill fillMaxCadence fillAvgCadence fillMaxPower fillAvgPower
    norm_num [pyTruthy, pyOr0, targetC4, boschC4, baseRec, pyRound1, pyRound]
  rw [happ]

/-- Target classified as cycling only through its name, not its activityType. -/
def targetC3 : ActivityRecord :=
  { baseRec with
    date := "2024-06-02"
    activityType := "walking"
    name := "Sortie ride"
    duration_s := 3600
    distance_km := 30 }

/-- Bosch record matching `targetC3` exactly on date, duration and distance. -/
def boschC3 : BoschActivity :=
  { date := "2024-06-02"
    start_time := ""
    duration_s := 3600
    distance_km := 30
    avg_power := some 250
    max_power := none
    avg_cadence := none
    max_cadence := none }

/-- C3 counterexample: the target matches a cycling keyword in its name only
and matches the Bosch record with score 1, yet the code enriches nothing,
because the keyword scan consults activityType alone. -/
theorem enrich_ignores_name_keywords :
    specCyclingTypeOrName targetC3 = true ∧
    isCyclingType targetC3.activityType = false ∧
    matchScore targetC3 boschC3 = 1 ∧
    enrich_activities_with_bosch [targetC3] [boschC3] = ([targetC3], 0) := by
  refine ⟨by decide, by decide, ?_, ?_⟩
  · norm_num [matchScore, sim_ratio, targetC3, boschC3, baseRec]
  · have hfb1 : (findBestMatch boschC3 [targetC3] 0 (none, 0)).1 = none := by
      simp only [findBestMatch]
      rw [if_neg]
      intro hc
      exact absurd hc.1 (by decide)
    unfold enrich_activities_with_bosch
    simp only [List.foldl]
    simp only [enrichStep, hfb1]

/-- Witness for C3 amended: the zero-value similarity clause applied at a
concrete zero input. -/
theorem enrich_candidate_selection_witness : sim_ratio 0 5 = 0 :=
  (enrich_candidate_selection boschC3 []).2.2.1 0 5 (Or.inl rfl)

/-- One element of a `timeInHRZones` list: the Garmin payload may hold plain
numbers or objects with a `seconds` key. -/
inductive GarminZoneEntry
  | num (value : ℚ)
  | obj (seconds : Option ℚ)
  deriving DecidableEq, Repr

/-- Seconds of one zone entry: the number itself, or the `seconds` key with
default 0. -/
def garminZoneSeconds : GarminZoneEntry → ℚ
  | .num v => v
  | .obj s => s.getD 0

/-- The fields of a raw Garmin activity payload read by `_parse_activity`.
The `activityType.typeKey` and `sportTypeDTO.typeKey` lookups are modelled by
the extracted key values; the per-zone millisecond counters
`hrTimeInZone_0 .. hrTimeInZone_6` by a function over the index. -/
structure GarminRaw where
  startTimeLocal : String
  activityId : Option ℤ
  activityName : Option String
  activityTypeKey : Option String
  sportTypeKey : Option String
  timeInHRZones : Option (List GarminZoneEntry)
  hrTimeInZone : ℕ → Option ℚ
  distance : Option ℚ
  duration : Option ℚ
  movingDuration : Option ℚ
  elapsedDuration : Option ℚ
  averageSpeed : Option ℚ
  maxSpeed : Option ℚ
  elevationGain : Option ℚ
  averageHR : Option ℚ
  maxHR : Option ℚ
  minHR : Option ℚ
  calories : Option ℚ
  averageBikingCadence : Option ℚ
  maxBikingCadence : Option ℚ
  avgPower : Option ℚ
  maxPower : Option ℚ
  normPower : Option ℚ
  grit : Option ℚ
  avgFlow : Option ℚ
  startLatitude : Option ℚ
  startLongitude : Option ℚ

/-- The hrZones extraction of `_parse_activity`: enumerate a structured zones
list when present and nonempty; otherwise collect the strictly positive
millisecond counters; otherwise emit seven zero-second entries. -/
def garminHRZones (act : GarminRaw) : List HRZone :=
  if ((act.timeInHRZones.getD []).enum.map
      (fun p => { zone := p.1, seconds := pyRound (garminZoneSeconds p.2) : HRZone })).isEmpty
  then
    if ((List.range 7).filterMap (fun i =>
        if 0 < pyOr0 (act.hrTimeInZone i) then
          some { zone := i, seconds := pyRound (pyOr0 (act.hrTimeInZone i) / 1000) : HRZone }
        else none)).isEmpty
    then (List.range 7).map (fun i => { zone := i, seconds := 0 })
    else (List.range 7).filterMap (fun i =>
        if 0 < pyOr0 (act.hrTimeInZone i) then
          some { zone := i, seconds := pyRound (pyOr0 (act.hrTimeInZone i) / 1000) : HRZone }
        else none)
  else
    (act.timeInHRZones.getD []).enum.map
      (fun p => { zone := p.1, seconds := pyRound (garminZoneSeconds p.2) : HRZone })

/-- `_parse_activity(act)`: normalization of one raw Garmin payload.  The
Python function returns `None` only when an exception escapes a field access;
in the typed model every access is total, so a record is always produced. -/
def _parse_activity (act : GarminRaw) : Option ActivityRecord :=
  some
    { activityId := act.activityId
      source := none
      name := act.activityName.getD ""
      activityType := act.activityTypeKey.getD ""
      sportType := pyUpper (act.sportTypeKey.getD "")
      date := if 10 ≤ act.startTimeLocal.data.length then pySlice act.startTimeLocal 0 10 else ""
      startTimeLocal :=
        if 16 ≤ act.startTimeLocal.data.length then pySlice act.startTimeLocal 11 16 else ""
      duration_s := (pyRound (pyOr0 act.duration) : ℚ)
      moving_duration_s := (pyRound (pyOr0 act.movingDuration) : ℚ)
      elapsed_duration_s := (pyRound (pyOr0 act.elapsedDuration) : ℚ)
      distance_km := pyRound2 (pyOr0 act.distance / 1000)
      avg_speed_kmh := pyRound1 (pyOr0 act.averageSpeed * (36/10))
      max_speed_kmh := pyRound1 (pyOr0 act.maxSpeed * (36/10))
      elevation_gain_m := (pyRound (pyOr0 act.elevationGain) : ℚ)
      avg_hr := act.averageHR
      max_hr := act.maxHR
      min_hr := act.minHR
      hrZones := garminHRZones act
      calories := (pyRound (pyOr0 act.calories) : ℚ)
      avg_cadence := pyRoundOpt1 act.averageBikingCadence
      max_cadence := pyRoundOpt1 act.maxBikingCadence
      avg_power := pyRoundOpt1 act.avgPower
      max_power := pyRoundOpt1 act.maxPower
      norm_power := pyRoundOpt1 act.normPower
      grit := pyRoundOpt1 act.grit
      avg_flow := pyRoundOpt1 act.avgFlow
      startLatitude := act.startLatitude
      startLongitude := act.startLongitude }

/-- The parsing loop of `fetch_activity_history`: parse every payload and keep
the successful results.  No distance filter is applied. -/
def fetch_activity_history_parse (raws : List GarminRaw) : List ActivityRecord :=
  raws.filterMap _parse_activity

/-- The fields of a raw Strava activity payload read by
`_parse_strava_activity`; `typeKey` models the `type` key. -/
structure StravaRaw where
  id : Option ℤ
  name : Option String
  sport_type : Option String
  typeKey : Option String
  distance : Option ℚ
  moving_time : Option ℚ
  elapsed_time : Option ℚ
  average_speed : Option ℚ
  max_speed : Option ℚ
  start_date_local : String
  start_latlng : Option (List (Option ℚ))
  total_elevation_gain : Option ℚ
  average_heartrate : Option ℚ
  max_heartrate : Option ℚ
  calories : Option ℚ
  average_cadence : Option ℚ
  average_watts : Option ℚ
  max_watts : Option ℚ
  weighted_average_watts : Option ℚ

/-- The coordinate pair default `act.get("start_latlng") or [None, None]`. -/
def stravaLatlng (act : StravaRaw) : List (Option ℚ) :=
  match act.start_latlng with
  | none => [none, none]
  | some l => if l.isEmpty then [none, none] else l

/-- `_parse_strava_activity(act)`: normalization of one raw Strava payload. -/
def _parse_strava_activity (act : StravaRaw) : ActivityRecord :=
  { activityId := some (act.id.getD 0)
    source := some "strava"
    name := act.name.getD ""
    activityType := act.typeKey.getD "Ride"
    sportType := act.sport_type.getD (act.typeKey.getD "Ride")
    date := if act.start_date_local = "" then "" else pySlice act.start_date_local 0 10
    startTimeLocal := act.start_date_local
    duration_s := pyOr0 act.moving_time
    moving_duration_s := pyOr0 act.moving_time
    elapsed_duration_s := pyOr0 act.elapsed_time
    distance_km := pyRound2 (pyOr0 act.distance / 1000)
    avg_speed_kmh := pyRound1 (pyOr0 act.average_speed * (36/10))
    max_speed_kmh := pyRound1 (pyOr0 act.max_speed * (36/10))
    elevation_gain_m := (pyRound (pyOr0 act.total_elevation_gain) : ℚ)
    avg_hr := act.average_heartrate
    max_hr := act.max_heartrate
    min_hr := none
    hrZones := []
    calories := (pyRound (pyOr0 act.calories) : ℚ)
    avg_cadence := pyRoundOpt1 act.average_cadence
    max_cadence := none
    avg_power := pyRoundOpt1 act.average_watts
    max_power := pyRoundOpt1 act.max_watts
    norm_power := pyRoundOpt1 act.weighted_average_watts
    grit := none
    avg_flow := none
    startLatitude := (stravaLatlng act).headD none
    startLongitude :=
      if 1 < (stravaLatlng act).length then (stravaLatlng act).getD 1 none else none }

/-- The keep-filter of the fetch loop of `fetch_strava_activities`: parse each
payload and keep only records with strictly positive distance. -/
def fetch_strava_kept (raws : List StravaRaw) : List ActivityRecord :=
  (raws.map _parse_strava_activity).filter (fun p => decide (0 < p.distance_km))

/-- A raw Garmin payload with every field absent (distance in particular). -/
def gRaw0 : GarminRaw :=
  { startTimeLocal := ""
    activityId := none
    activityName := none
    activityTypeKey := none
    sportTypeKey := none
    timeInHRZones := none
    hrTimeInZone := fun _ => none
    distance := none
    duration := none
    movingDuration := none
    elapsedDuration := none
    averageSpeed := none
    maxSpeed := none
    elevationGain := none
    averageHR := none
    maxHR := none
    minHR := none
    calories := none
    averageBikingCadence := none
    maxBikingCadence := none
    avgPower := none
    maxPower := none
    normPower := none
    grit := none
    avgFlow := none
    startLatitude := none
    startLongitude := none }

/-- A raw Garmin payload offering a three-element structured zones list. -/
def gRaw3 : GarminRaw :=
  { gRaw0 with
    timeInHRZones := some [GarminZoneEntry.num 100, GarminZoneEntry.num 200,
      GarminZoneEntry.num 300] }

/-- A raw Strava payload with a 2 km distance. -/
def sRawGood : StravaRaw :=
  { id := some 7
    name := some "Ride"
    sport_type := none
    typeKey := none
    distance := some 2000
    moving_time := some 600
    elapsed_time := some 700
    average_speed := none
    max_speed := none
    start_date_local := "2024-03-05T08:00:00"
    start_latlng := none
    total_elevation_gain := none
    average_heartrate := none
    max_heartrate := none
    calories := none
    average_cadence := none
    average_watts := none
    max_watts := none
    weighted_average_watts := none }

/-- C6 amended: the Strava fetch loop emits no more records than payloads and
never a record with non-positive distance; the Garmin parse loop bounds its
output length but applies no distance filter. -/
theorem adapters_distance_filter (sraws : List StravaRaw) (graws : List GarminRaw) :
    (fetch_strava_kept sraws).length ≤ sraws.length ∧
    (∀ r ∈ fetch_strava_kept sraws, 0 < r.distance_km) ∧
    (fetch_activity_history_parse graws).length ≤ graws.length := by
  refine ⟨?_, ?_, List.length_filterMap_le _ _⟩
  · calc (fetch_strava_kept sraws).length
        ≤ (sraws.map _parse_strava_activity).length :=
          List.length_filter_le _ _
      _ = sraws.length := List.length_map _ _
  · intro r hr
    have h2 := (List.mem_filter.mp hr).2
    simpa using h2

/-- Witness for C6 amended: the parsed 2 km Strava record survives the filter
and indeed has positive distance. -/
theorem adapters_distance_filter_witness :
    0 < (_parse_strava_activity sRawGood).distance_km := by
  have hdist : (_parse_strava_activity sRawGood).distance_km = 2 := by
    norm_num [_parse_strava_activity, sRawGood, pyOr0, pyRound2, pyRound]
  refine (adapters_distance_filter [sRawGood] []).2.1 (_parse_strava_activity sRawGood) ?_
  unfold fetch_strava_kept
  simp only [List.map]
  rw [List.filter_cons]
  rw [if_pos (by rw [hdist]; norm_num)]
  exact List.mem_cons_self _ _

/-- C6 counterexample: a Garmin payload with no distance normalizes to a
record with distance 0 that the Garmin adapter emits anyway. -/
theorem garmin_emits_zero_distance :
    (fetch_activity_history_parse [gRaw0]).map (fun r => r.distance_km) = [0] := by
  unfold fetch_activity_history_parse
  rw [List.filterMap_cons]
  simp only [_parse_activity]
  norm_num [gRaw0, pyOr0, pyRound2, pyRound]

/-- C7 counterexample: a structured zones list of three entries yields an
hrZones array of length 3, neither 0 nor 7. -/
theorem hrzones_length_three :
    (_parse_activity gRaw3).map (fun r => r.hrZones.length) = some 3 ∧
    (3:ℕ) ≠ 0 ∧ (3:ℕ) ≠ 7 := by
  refine ⟨?_, by decide, by decide⟩
  simp only [_parse_activity, Option.map_some]
  simp [garminHRZones, gRaw3, gRaw0, List.enum_length]

/-- A guarded filterMap is the map of the filter. -/
theorem filterMap_ite_eq_filter_map {α β : Type} (p : α → Prop) [DecidablePred p]
    (f : α → β) (l : List α) :
    l.filterMap (fun a => if p a then some (f a) else none)
      = (l.filter (fun a => decide (p a))).map f := by
  induction l with
  | nil => rfl
  | cons a t ih =>
    by_cases h : p a <;>
      simp [List.filterMap_cons, List.filter_cons, h, ih]

/-- A raw Garmin payload with no structured zones list and a single positive
millisecond counter, in zone 2. -/
def gRawCnt : GarminRaw :=
  { gRaw0 with hrTimeInZone := fun i => if i = 2 then some 5000 else none }

/-- C7 amended: hrZones mirrors the provider data through an exhaustive case
split: a nonempty structured zones list is enumerated as is (same length,
0-based zone indices); otherwise, when some per-zone millisecond counter is
strictly positive, the array holds exactly one entry per strictly positive
counter, in zone order, with the rounded seconds; otherwise — and the two
counter conditions are complementary, so these cases cover everything — the
adapter emits exactly seven zero-second entries; the Strava adapter always
emits an empty array. -/
theorem hrzones_structure (act : GarminRaw) (sact : StravaRaw) :
    (∀ zd, act.timeInHRZones = some zd → zd ≠ [] →
      garminHRZones act = zd.enum.map
        (fun p => { zone := p.1, seconds := pyRound (garminZoneSeconds p.2) }) ∧
      (garminHRZones act).length = zd.length ∧
      ∀ k, ∀ hk : k < (garminHRZones act).length,
        ((garminHRZones act).get ⟨k, hk⟩).zone = k) ∧
    (act.timeInHRZones.getD [] = [] →
      (∃ i, i < 7 ∧ 0 < pyOr0 (act.hrTimeInZone i)) →
      garminHRZones act =
        ((List.range 7).filter (fun i => decide (0 < pyOr0 (act.hrTimeInZone i)))).map
          (fun i => { zone := i, seconds := pyRound (pyOr0 (act.hrTimeInZone i) / 1000) })) ∧
    (act.timeInHRZones.getD [] = [] →
      (∀ i, i < 7 → pyOr0 (act.hrTimeInZone i) ≤ 0) →
      garminHRZones act = (List.range 7).map (fun i => { zone := i, seconds := 0 })) ∧
    ((∃ i, i < 7 ∧ 0 < pyOr0 (act.hrTimeInZone i)) ↔
      ¬ (∀ i, i < 7 → pyOr0 (act.hrTimeInZone i) ≤ 0)) ∧
    (_parse_strava_activity sact).hrZones = [] := by
  refine ⟨?_, ?_, ?_, ?_, rfl⟩
  · intro zd hzd hne
    have hred : garminHRZones act = zd.enum.map
        (fun p => { zone := p.1, seconds := pyRound (garminZoneSeconds p.2) : HRZone }) := by
      unfold garminHRZones
      rw [hzd]
      simp only [Option.getD_some]
      rw [if_neg]
      intro hc
      rw [List.isEmpty_iff] at hc
      apply hne
      have hlen := congrArg List.length hc
      simp only [List.length_map, List.enum_length, List.length_nil] at hlen
      exact List.length_eq_zero.mp hlen
    refine ⟨hred, ?_, ?_⟩
    · rw [hred]
      simp [List.enum_length]
    · rw [hred]
      intro k hk
      simp [List.get_eq_getElem, List.getElem_map, List.getElem_enum]
  · intro hnil hex
    have hne : ¬ (((List.range 7).filterMap (fun i =>
        if 0 < pyOr0 (act.hrTimeInZone i) then
          some { zone := i, seconds := pyRound (pyOr0 (act.hrTimeInZone i) / 1000) : HRZone }
        else none)).isEmpty = true) := by
      obtain ⟨i, hi7, hpos⟩ := hex
      rw [List.isEmpty_iff, List.filterMap_eq_nil_iff]
      intro hall
      have := hall i (List.mem_range.mpr hi7)
      rw [if_pos hpos] at this
      exact Option.noConfusion this
    unfold garminHRZones
    rw [hnil]
    rw [if_pos (by simp)]
    rw [if_neg hne]
    exact filterMap_ite_eq_filter_map _ _ _
  · intro hnil hcounters
    have hfc : ((List.range 7).filterMap (fun i =>
        if 0 < pyOr0 (act.hrTimeInZone i) then
          some { zone := i, seconds := pyRound (pyOr0 (act.hrTimeInZone i) / 1000) : HRZone }
        else none)) = [] := by
      rw [List.filterMap_eq_nil_iff]
      intro i hi
      rw [if_neg]
      exact not_lt.mpr (hcounters i (List.mem_range.mp hi))
    unfold garminHRZones
    rw [hnil]
    rw [if_pos (by simp)]
    rw [if_pos (by rw [List.isEmpty_iff]; exact hfc)]
  · constructor
    · rintro ⟨i, hi7, hpos⟩ hall
      exact absurd (hall i hi7) (not_le.mpr hpos)
    · intro h
      push_neg at h
      obtain ⟨i, hi7, hpos⟩ := h
      exact ⟨i, hi7, hpos⟩

/-- Witness for C7 amended: the payload with one positive counter in zone 2
yields exactly the positive-counter entries. -/
theorem hrzones_structure_witness :
    garminHRZones gRawCnt =
      ((List.range 7).filter (fun i => decide (0 < pyOr0 (gRawCnt.hrTimeInZone i)))).map
        (fun i => { zone := i, seconds := pyRound (pyOr0 (gRawCnt.hrTimeInZone i) / 1000) }) :=
  (hrzones_structure gRawCnt sRawGood).2.1 (by simp [gRawCnt, gRaw0])
    ⟨2, by norm_num, by norm_num [gRawCnt, gRaw0, pyOr0]⟩
